import Mathlib

/-!
# checkUserExists (functions/index.js)

A shallow embedding of the callable handler `checkUserExists` of
`functions/index.js` and of the fragment of JavaScript it runs on:
dynamic values, property reads, `typeof`, truthiness, `||`, `===` against a
string literal, `try`/`catch`, and one awaited call to the identity
directory (`admin.auth().getUserByEmail`).

The directory is the only thing outside the handler.  It is a component of the
`World` the handler runs in, together with the log of the lookups made so far,
so that "how many lookups, with which argument" is a statement about states.
-/

namespace CheckUserExists

/-- Number values.  Every finite double is a rational; the program never does
arithmetic, it only asks whether a number is falsy (`0`, `-0`, `NaN`). -/
inductive JSNum where
  | nan
  | posInf
  | negInf
  | finite (q : ℚ)

/-- JavaScript values the handler can meet: a decoded callable payload, what the
directory resolves or rejects with, and the objects the handler builds.
An object is its list of own properties, the first binding of a key being the
one that is read. -/
inductive JSVal where
  | undefined
  | null
  | bool (b : Bool)
  | num (n : JSNum)
  | str (s : String)
  | arr (items : List JSVal)
  | obj (fields : List (String × JSVal))

/-- The `typeof` operator. -/
def typeOf : JSVal → String
  | .undefined => "undefined"
  | .null => "object"
  | .bool _ => "boolean"
  | .num _ => "number"
  | .str _ => "string"
  | .arr _ => "object"
  | .obj _ => "object"

/-- Truthiness (`ToBoolean`): `undefined`, `null`, `false`, `0`, `NaN` and `""`
are falsy, everything else is truthy. -/
def truthy : JSVal → Bool
  | .undefined => false
  | .null => false
  | .bool b => b
  | .num .nan => false
  | .num (.finite q) => decide (q ≠ 0)
  | .num _ => true
  | .str s => decide (s ≠ "")
  | .arr _ => true
  | .obj _ => true

/-- The operator `a || b`: `a` when it is truthy, else `b`. -/
def jsOr (a b : JSVal) : JSVal :=
  if truthy a then a else b

/-- The comparison `v === "lit"` of a value with a string literal. -/
def strictEqStr (v : JSVal) (lit : String) : Bool :=
  match v with
  | .str s => decide (s = lit)
  | _ => false

/-- The `TypeError` V8 raises when property `key` is read from `null` or
`undefined` (`shown` is the printed base value). -/
def typeError (shown key : String) : JSVal :=
  .obj [("name", .str "TypeError"),
        ("message", .str ("Cannot read properties of " ++ shown ++ " (reading \x27" ++ key ++ "\x27)"))]

/-- A property read `base.key`, for the keys the handler reads (`email`, `uid`,
`displayName`, `photoURL`, `code`, `message`), none of which is a built-in
property of a primitive or of an array.  Reading from `null` or `undefined`
throws; a key that is not there reads as `undefined`. -/
def getProp (base : JSVal) (key : String) : Except JSVal JSVal :=
  match base with
  | .undefined => .error (typeError "undefined" key)
  | .null => .error (typeError "null" key)
  | .obj fields => .ok ((fields.lookup key).getD .undefined)
  | _ => .ok .undefined

/-- How an awaited promise settles. -/
inductive Settled where
  | resolved (value : JSVal)
  | rejected (reason : JSVal)

/-- The world an invocation runs in: the identity directory, as the function
from the argument of `getUserByEmail` to the way the returned promise settles
(a synchronous throw inside the `try` block is a rejection), and the arguments
of the lookups made so far, oldest first. -/
structure World where
  directory : JSVal → Settled
  lookups : List JSVal

/-- How an invocation of the handler ends: it returns a value, it throws
`new functions.https.HttpsError(code, message)` (the two arguments given to the
constructor), or another exception escapes it.  The handler is `async`:
returning fulfils its promise, throwing rejects it. -/
inductive Outcome where
  | returned (value : JSVal)
  | httpsError (code : String) (message : JSVal)
  | threw (exn : JSVal)

/-- The call `await admin.auth().getUserByEmail(email)`: one lookup, logged. -/
def getUserByEmail (email : JSVal) (w : World) : Settled × World :=
  (w.directory email, { w with lookups := w.lookups ++ [email] })

/-- The object literal returned by the `try` block, built from the resolved
`userRecord`; the three property reads happen in source order. -/
def foundResult (userRecord : JSVal) : Except JSVal JSVal := do
  let uid ← getProp userRecord "uid"
  let displayName ← getProp userRecord "displayName"
  let photoURL ← getProp userRecord "photoURL"
  pure (.obj [("exists", .bool true),
              ("uid", uid),
              ("name", jsOr displayName .null),
              ("photoUrl", jsOr photoURL .null)])

/-- The `try` block: await the lookup, then build the result.  `.error` is
whatever the block throws, to be handed to the `catch` block. -/
def tryBlock (email : JSVal) (w : World) : Except JSVal JSVal × World :=
  match getUserByEmail email w with
  | (.rejected reason, w1) => (.error reason, w1)
  | (.resolved userRecord, w1) => (foundResult userRecord, w1)

/-- The `catch (error)` block. -/
def catchBlock (error : JSVal) : Outcome :=
  match getProp error "code" with
  | .error exn => .threw exn
  | .ok code =>
    if strictEqStr code "auth/user-not-found" then
      .returned (.obj [("exists", .bool false)])
    else
      match getProp error "message" with
      | .error exn => .threw exn
      | .ok message => .httpsError "internal" message

/-- The handler given to `functions.https.onCall`, run on payload `data` in
world `w` (the `context` argument is never used). -/
def checkUserExists (data : JSVal) (w : World) : Outcome × World :=
  match getProp data "email" with
  | .error exn => (.threw exn, w)
  | .ok email =>
    if !(truthy email) || decide (typeOf email ≠ "string") then
      (.httpsError "invalid-argument" (.str "A valid email must be provided."), w)
    else
      match tryBlock email w with
      | (.ok result, w1) => (.returned result, w1)
      | (.error error, w1) => (catchBlock error, w1)

/-- The error code of an outcome, when it is an `HttpsError`. -/
def Outcome.code? : Outcome → Option String
  | .httpsError code _ => some code
  | _ => none

/-- The four outcomes of the contract: a `Found` object, the `NotFound` object
`{ exists: false }`, an `invalid-argument` error, an `internal` error. -/
def Outcome.isContractual : Outcome → Bool
  | .returned (.obj [("exists", .bool true), ("uid", _), ("name", _), ("photoUrl", _)]) => true
  | .returned (.obj [("exists", .bool false)]) => true
  | .httpsError code _ => decide (code = "invalid-argument") || decide (code = "internal")
  | _ => false

/-- A world whose directory knows no account: every lookup is rejected with the
directory's "no such account" error. -/
def emptyWorld : World :=
  { directory := fun _ => .rejected (.obj [("code", .str "auth/user-not-found"),
                                           ("message", .str "There is no user record.")]),
    lookups := [] }

/-- A world whose directory holds the single account `a@b.com`, with identifier
`123` and neither display name nor photo. -/
def oneAccountWorld : World :=
  { directory := fun q =>
      if strictEqStr q "a@b.com" then .resolved (.obj [("uid", .str "123")])
      else .rejected (.obj [("code", .str "auth/user-not-found"),
                            ("message", .str "There is no user record.")]),
    lookups := [] }

/-- A world whose directory is unreachable: every lookup is rejected with a
network error. -/
def offlineWorld : World :=
  { directory := fun _ => .rejected (.obj [("code", .str "auth/network-request-failed"),
                                           ("message", .str "socket hang up")]),
    lookups := [] }

/-- The world after one more lookup, with argument `q`. -/
def World.afterLookup (w : World) (q : JSVal) : World :=
  { w with lookups := w.lookups ++ [q] }

/-- The lookups made during the invocation on `data` started in world `w`: what
the invocation appended to the log. -/
def lookupsDuring (data : JSVal) (w : World) : List JSVal :=
  (checkUserExists data w).2.lookups.drop w.lookups.length

/-! ## Shape of a run -/

/-- A value passes the validation of the handler exactly when it is a non-empty
string. -/
theorem validation_passes_iff (email : JSVal) :
    (!(truthy email) || decide (typeOf email ≠ "string")) = false ↔
      ∃ s, email = .str s ∧ s ≠ "" := by
  cases email with
  | str s => by_cases hs : s = "" <;> simp [truthy, typeOf, hs]
  | num n => cases n <;> simp [truthy, typeOf]
  | _ => simp [truthy, typeOf]

/-- Reading `email` from the payload leaves three cases: the read throws, the
value read is rejected by the validation, or it is a non-empty string. -/
theorem email_cases (data : JSVal) :
    (∃ exn, getProp data "email" = .error exn) ∨
    (∃ email, getProp data "email" = .ok email ∧ (typeOf email ≠ "string" ∨ email = .str "")) ∨
    (∃ s, getProp data "email" = .ok (.str s) ∧ s ≠ "") := by
  cases h : getProp data "email" with
  | error exn => exact Or.inl ⟨exn, rfl⟩
  | ok email =>
    right
    cases email with
    | str s =>
      by_cases hs : s = ""
      · exact Or.inl ⟨_, rfl, Or.inr (by rw [hs])⟩
      · exact Or.inr ⟨s, rfl, hs⟩
    | _ => exact Or.inl ⟨_, rfl, Or.inl (by simp [typeOf])⟩

/-- A run whose first property read throws: the exception escapes at once. -/
theorem run_of_unreadable (data : JSVal) (w : World) (exn : JSVal)
    (h : getProp data "email" = .error exn) :
    checkUserExists data w = (.threw exn, w) := by
  simp [checkUserExists, h]

/-- A run whose `email` is rejected by the validation. -/
theorem run_of_invalid (data : JSVal) (w : World) (email : JSVal)
    (h : getProp data "email" = .ok email)
    (hbad : typeOf email ≠ "string" ∨ email = .str "") :
    checkUserExists data w
      = (.httpsError "invalid-argument" (.str "A valid email must be provided."), w) := by
  have hv : (!(truthy email) || decide (typeOf email ≠ "string")) = true := by
    rcases hbad with hty | rfl
    · simp [hty]
    · simp [truthy]
  simp only [checkUserExists, h, hv, if_true]

/-- A run whose lookup settles by rejection: the `catch` block decides. -/
theorem run_of_rejected (data : JSVal) (w : World) (s : String) (reason : JSVal)
    (h : getProp data "email" = .ok (.str s)) (hs : s ≠ "")
    (hdir : w.directory (.str s) = .rejected reason) :
    checkUserExists data w = (catchBlock reason, w.afterLookup (.str s)) := by
  have hv : (!(truthy (.str s)) || decide (typeOf (.str s) ≠ "string")) = false :=
    (validation_passes_iff _).2 ⟨s, rfl, hs⟩
  simp only [checkUserExists, h, hv, Bool.false_eq_true, if_false, tryBlock, getUserByEmail, hdir,
    World.afterLookup]

/-- A run whose lookup settles by resolution: the result is built from the
record, and if building it throws, the `catch` block decides. -/
theorem run_of_resolved (data : JSVal) (w : World) (s : String) (userRecord : JSVal)
    (h : getProp data "email" = .ok (.str s)) (hs : s ≠ "")
    (hdir : w.directory (.str s) = .resolved userRecord) :
    checkUserExists data w
      = (match foundResult userRecord with
          | .ok result => .returned result
          | .error error => catchBlock error,
         w.afterLookup (.str s)) := by
  have hv : (!(truthy (.str s)) || decide (typeOf (.str s) ≠ "string")) = false :=
    (validation_passes_iff _).2 ⟨s, rfl, hs⟩
  simp only [checkUserExists, h, hv, Bool.false_eq_true, if_false, tryBlock, getUserByEmail, hdir,
    World.afterLookup]
  cases foundResult userRecord <;> rfl

/-- Whatever the payload, a run with a non-empty string `email` makes exactly
the lookup of that string. -/
theorem world_of_valid (data : JSVal) (w : World) (s : String)
    (h : getProp data "email" = .ok (.str s)) (hs : s ≠ "") :
    (checkUserExists data w).2 = w.afterLookup (.str s) := by
  cases hdir : w.directory (.str s) with
  | resolved r => rw [run_of_resolved data w s r h hs hdir]
  | rejected e => rw [run_of_rejected data w s e h hs hdir]

/-- The log of a run with a non-empty string `email`. -/
theorem lookupsDuring_of_valid (data : JSVal) (w : World) (s : String)
    (h : getProp data "email" = .ok (.str s)) (hs : s ≠ "") :
    lookupsDuring data w = [.str s] := by
  simp [lookupsDuring, world_of_valid data w s h hs, World.afterLookup]

/-- The log of a run whose `email` is not a non-empty string. -/
theorem lookupsDuring_of_not_valid (data : JSVal) (w : World)
    (h : ∀ s, getProp data "email" = .ok (.str s) → s = "") :
    checkUserExists data w = ((checkUserExists data w).1, w) ∧ lookupsDuring data w = [] := by
  rcases email_cases data with ⟨exn, he⟩ | ⟨email, he, hbad⟩ | ⟨s, he, hs⟩
  · simp [lookupsDuring, run_of_unreadable data w exn he]
  · simp [lookupsDuring, run_of_invalid data w email he hbad]
  · exact absurd (h s he) hs

/-- The result object built from an object record. -/
theorem foundResult_obj (fields : List (String × JSVal)) :
    foundResult (.obj fields)
      = .ok (.obj [("exists", .bool true),
                   ("uid", (fields.lookup "uid").getD .undefined),
                   ("name", jsOr ((fields.lookup "displayName").getD .undefined) .null),
                   ("photoUrl", jsOr ((fields.lookup "photoURL").getD .undefined) .null)]) := by
  rfl

/-- The `catch` block never produces an `invalid-argument` error. -/
theorem catchBlock_code (error : JSVal) :
    (catchBlock error).code? ≠ some "invalid-argument" := by
  unfold catchBlock
  cases getProp error "code" with
  | error exn => simp [Outcome.code?]
  | ok code =>
    cases hc : strictEqStr code "auth/user-not-found" with
    | true => simp [hc, Outcome.code?]
    | false =>
      cases getProp error "message" with
      | error exn => simp [hc, Outcome.code?]
      | ok message => simp [hc, Outcome.code?]

/-- The `TypeError` of a failed property read has no `code`: the `catch` block
turns it into an `internal` error carrying its message. -/
theorem catchBlock_typeError (shown key : String) :
    catchBlock (typeError shown key)
      = .httpsError "internal"
          (.str ("Cannot read properties of " ++ shown ++ " (reading \x27" ++ key ++ "\x27)")) := by
  rfl

/-- Building the result either succeeds with a four-field object whose `exists`
is true, or fails with the `TypeError` of the first property read. -/
theorem foundResult_cases (userRecord : JSVal) :
    (∃ uid name photoUrl, foundResult userRecord
        = .ok (.obj [("exists", .bool true), ("uid", uid), ("name", name),
                     ("photoUrl", photoUrl)])) ∨
    (∃ shown, foundResult userRecord = .error (typeError shown "uid")) := by
  cases userRecord with
  | undefined => exact Or.inr ⟨"undefined", rfl⟩
  | null => exact Or.inr ⟨"null", rfl⟩
  | _ => exact Or.inl ⟨_, _, _, rfl⟩

/-- The `catch` block returns only the object `{ exists: false }`, and only for
an error whose `code` is `auth/user-not-found`. -/
theorem catchBlock_returned (error result : JSVal)
    (h : catchBlock error = .returned result) :
    result = .obj [("exists", .bool false)] ∧
      getProp error "code" = .ok (.str "auth/user-not-found") := by
  unfold catchBlock at h
  cases hc : getProp error "code" with
  | error exn => simp [hc] at h
  | ok code =>
    cases hs : strictEqStr code "auth/user-not-found" with
    | false =>
      cases hm : getProp error "message" <;> simp [hc, hs, hm] at h
    | true =>
      simp only [hc, hs, if_true] at h
      refine ⟨(Outcome.returned.inj h).symm, ?_⟩
      cases code with
      | str c =>
        have : c = "auth/user-not-found" := by simpa [strictEqStr] using hs
        rw [this]
      | _ => simp [strictEqStr] at hs

/-- The `catch` block ends in one of the contractual outcomes whenever `code`
can be read from the error it is given. -/
theorem catchBlock_contractual (error code : JSVal) (hc : getProp error "code" = .ok code) :
    (catchBlock error).isContractual = true := by
  have hm : ∃ message, getProp error "message" = .ok message := by
    cases error <;> first | exact ⟨_, rfl⟩ | simp [getProp] at hc
  obtain ⟨message, hm⟩ := hm
  unfold catchBlock
  cases hs : strictEqStr code "auth/user-not-found" <;>
    simp [hc, hm, hs, Outcome.isContractual]

/-- A run with a non-empty string `email` never ends in `invalid-argument`. -/
theorem code_of_valid (data : JSVal) (w : World) (s : String)
    (hread : getProp data "email" = .ok (.str s)) (hs : s ≠ "") :
    (checkUserExists data w).1.code? ≠ some "invalid-argument" := by
  intro hcode
  cases hdir : w.directory (.str s) with
  | rejected reason =>
    rw [run_of_rejected data w s reason hread hs hdir] at hcode
    exact catchBlock_code reason hcode
  | resolved userRecord =>
    rw [run_of_resolved data w s userRecord hread hs hdir] at hcode
    cases hf : foundResult userRecord with
    | ok result => simp [hf, Outcome.code?] at hcode
    | error error =>
      simp only [hf] at hcode
      exact catchBlock_code error hcode

/-- A payload from which `email` can be read (any value but `null` and
`undefined`) and whose `email` is not a string (a missing field reads as
`undefined`; a number such as 42 has type `number`) is answered with the
`HttpsError` with code `invalid-argument` and message
`A valid email must be provided.`. -/
theorem invalid_argument_of_readable (data : JSVal) (w : World) (email : JSVal)
    (hread : getProp data "email" = .ok email) (hty : typeOf email ≠ "string") :
    (checkUserExists data w).1
      = .httpsError "invalid-argument" (.str "A valid email must be provided.") := by
  rw [run_of_invalid data w email hread (Or.inl hty)]

/-- The requests `{}` and `{ email: 42 }` are answered with `invalid-argument`. -/
theorem invalid_argument_of_readable_scenarios :
    (checkUserExists (.obj []) oneAccountWorld).1
        = .httpsError "invalid-argument" (.str "A valid email must be provided.") ∧
    (checkUserExists (.obj [("email", .num (.finite 42))]) oneAccountWorld).1
        = .httpsError "invalid-argument" (.str "A valid email must be provided.") :=
  ⟨invalid_argument_of_readable (.obj []) oneAccountWorld .undefined rfl (by decide),
   invalid_argument_of_readable (.obj [("email", .num (.finite 42))]) oneAccountWorld
     (.num (.finite 42)) rfl (by decide)⟩

/-! ## The contract of the handler -/

/-- C1 fails on the code for the request that carries no payload: with `data`
equal to `null` (or `undefined`) the email is missing, yet the read `data.email`
throws a `TypeError` before the validation is reached, so the invocation ends
in that exception and not in the `invalid-argument` error; no lookup is made.
The request `{}`, whose email is missing as well, does get `invalid-argument`. -/
theorem missing_payload_not_invalid_argument (w : World) :
    checkUserExists .null w = (.threw (typeError "null" "email"), w) ∧
    (checkUserExists .null w).1.code? ≠ some "invalid-argument" ∧
    checkUserExists .undefined w = (.threw (typeError "undefined" "email"), w) ∧
    (checkUserExists .undefined w).1.code? ≠ some "invalid-argument" ∧
    (checkUserExists (.obj []) w).1
      = .httpsError "invalid-argument" (.str "A valid email must be provided.") :=
  ⟨rfl, fun h => Option.noConfusion h, rfl, fun h => Option.noConfusion h, rfl⟩

/-- C2: for every payload and every directory, if the invocation made the lookup
`q` and the directory resolves `q` with an object record, the handler returns
the object with `exists` true, `uid` the record's `uid`, and `name` / `photoUrl`
both present: the record's `displayName` / `photoURL` when that is a non-empty
string, `null` when it is the empty string or absent (no such field, or a field
holding `undefined` or `null`). -/
theorem found_of_successful_lookup (data : JSVal) (w : World) (q : JSVal)
    (fields : List (String × JSVal))
    (hcall : lookupsDuring data w = [q])
    (hres : w.directory q = .resolved (.obj fields)) :
    ∃ name photoUrl,
      (checkUserExists data w).1
        = .returned (.obj [("exists", .bool true),
                           ("uid", (fields.lookup "uid").getD .undefined),
                           ("name", name),
                           ("photoUrl", photoUrl)]) ∧
      (∀ n, fields.lookup "displayName" = some (.str n) → n ≠ "" → name = .str n) ∧
      (fields.lookup "displayName" = some (.str "") ∨ fields.lookup "displayName" = none ∨
        fields.lookup "displayName" = some .undefined ∨ fields.lookup "displayName" = some .null →
        name = .null) ∧
      (∀ p, fields.lookup "photoURL" = some (.str p) → p ≠ "" → photoUrl = .str p) ∧
      (fields.lookup "photoURL" = some (.str "") ∨ fields.lookup "photoURL" = none ∨
        fields.lookup "photoURL" = some .undefined ∨ fields.lookup "photoURL" = some .null →
        photoUrl = .null) := by
  have hvalid : ∃ s, getProp data "email" = .ok (.str s) ∧ s ≠ "" := by
    by_contra hno
    have hnone := (lookupsDuring_of_not_valid data w (fun s hs => by
      by_contra hne
      exact hno ⟨s, hs, hne⟩)).2
    rw [hnone] at hcall
    exact List.noConfusion hcall
  obtain ⟨s, hs, hne⟩ := hvalid
  have hq : q = .str s := by
    have := lookupsDuring_of_valid data w s hs hne
    rw [this] at hcall
    exact (List.cons.inj hcall).1.symm
  subst hq
  refine ⟨jsOr ((fields.lookup "displayName").getD .undefined) .null,
          jsOr ((fields.lookup "photoURL").getD .undefined) .null, ?_, ?_, ?_, ?_, ?_⟩
  · rw [run_of_resolved data w s (.obj fields) hs hne hres, foundResult_obj]
  · intro n hn hn0
    simp [hn, jsOr, truthy, hn0]
  · rintro (h | h | h | h) <;> simp [h, jsOr, truthy]
  · intro n hn hn0
    simp [hn, jsOr, truthy, hn0]
  · rintro (h | h | h | h) <;> simp [h, jsOr, truthy]

/-- The scenario of C2: the directory holds `a@b.com` with `uid` 123 and
neither name nor photo. -/
theorem found_of_successful_lookup_witness :
    lookupsDuring (.obj [("email", .str "a@b.com")]) oneAccountWorld = [.str "a@b.com"] ∧
    oneAccountWorld.directory (.str "a@b.com") = .resolved (.obj [("uid", .str "123")]) ∧
    (checkUserExists (.obj [("email", .str "a@b.com")]) oneAccountWorld).1
      = .returned (.obj [("exists", .bool true), ("uid", .str "123"),
                         ("name", .null), ("photoUrl", .null)]) := by
  refine ⟨rfl, rfl, ?_⟩
  obtain ⟨name, photoUrl, hrun, _, hname, _, hphoto⟩ :=
    found_of_successful_lookup (.obj [("email", .str "a@b.com")]) oneAccountWorld
      (.str "a@b.com") [("uid", .str "123")] rfl rfl
  rw [hrun, hname (Or.inr (Or.inl rfl)), hphoto (Or.inr (Or.inl rfl))]
  rfl

/-- C3: when `email` passes validation and the lookup is rejected with an error
whose `code` is `auth/user-not-found`, the handler throws nothing and returns
exactly the object `{ exists: false }`, which has no other field. -/
theorem not_found_of_no_such_account (data : JSVal) (w : World) (s : String) (reason : JSVal)
    (hread : getProp data "email" = .ok (.str s)) (hs : s ≠ "")
    (hdir : w.directory (.str s) = .rejected reason)
    (hcode : getProp reason "code" = .ok (.str "auth/user-not-found")) :
    (checkUserExists data w).1 = .returned (.obj [("exists", .bool false)]) := by
  rw [run_of_rejected data w s reason hread hs hdir]
  simp [catchBlock, hcode, strictEqStr]

/-- The scenario of C3: nobody is known to the directory. -/
theorem not_found_of_no_such_account_witness :
    getProp (.obj [("email", .str "nobody@x.com")]) "email" = .ok (.str "nobody@x.com") ∧
    "nobody@x.com" ≠ "" ∧
    (checkUserExists (.obj [("email", .str "nobody@x.com")]) emptyWorld).1
      = .returned (.obj [("exists", .bool false)]) :=
  ⟨rfl, by decide,
   not_found_of_no_such_account (.obj [("email", .str "nobody@x.com")]) emptyWorld "nobody@x.com"
     (.obj [("code", .str "auth/user-not-found"), ("message", .str "There is no user record.")])
     rfl (by decide) rfl rfl⟩

/-- C4: when `email` passes validation and the lookup is rejected with an error
whose `code` reads as anything but the string `auth/user-not-found`, the
handler throws the `HttpsError` with code `internal`, constructed with exactly
the value read from the error's `message`. -/
theorem internal_of_other_failure (data : JSVal) (w : World) (s : String) (reason code : JSVal)
    (hread : getProp data "email" = .ok (.str s)) (hs : s ≠ "")
    (hdir : w.directory (.str s) = .rejected reason)
    (hcode : getProp reason "code" = .ok code)
    (hother : code ≠ .str "auth/user-not-found") :
    ∃ message, getProp reason "message" = .ok message ∧
      (checkUserExists data w).1 = .httpsError "internal" message := by
  have hneq : strictEqStr code "auth/user-not-found" = false := by
    cases code with
    | str c =>
      have : c ≠ "auth/user-not-found" := fun hc => hother (by rw [hc])
      simp [strictEqStr, this]
    | _ => rfl
  rw [run_of_rejected data w s reason hread hs hdir]
  cases reason with
  | undefined => simp [getProp] at hcode
  | null => simp [getProp] at hcode
  | obj fields =>
    exact ⟨_, rfl, by
      rw [show getProp (.obj fields) "code" = .ok ((fields.lookup "code").getD .undefined) from rfl]
        at hcode
      cases hcode
      simp [catchBlock, getProp, hneq]⟩
  | bool b => exact ⟨.undefined, rfl, by cases hcode; simp [catchBlock, getProp, strictEqStr]⟩
  | num n => exact ⟨.undefined, rfl, by cases hcode; simp [catchBlock, getProp, strictEqStr]⟩
  | str t => exact ⟨.undefined, rfl, by cases hcode; simp [catchBlock, getProp, strictEqStr]⟩
  | arr t => exact ⟨.undefined, rfl, by cases hcode; simp [catchBlock, getProp, strictEqStr]⟩

/-- A network failure of the directory surfaces as `internal` with the
message of the failure. -/
theorem internal_of_other_failure_witness :
    getProp (.obj [("email", .str "a@b.com")]) "email" = .ok (.str "a@b.com") ∧
    (∃ message,
      getProp (.obj [("code", .str "auth/network-request-failed"),
                     ("message", .str "socket hang up")]) "message" = .ok message ∧
      (checkUserExists (.obj [("email", .str "a@b.com")]) offlineWorld).1
        = .httpsError "internal" message) ∧
    (checkUserExists (.obj [("email", .str "a@b.com")]) offlineWorld).1
      = .httpsError "internal" (.str "socket hang up") :=
  ⟨rfl,
   internal_of_other_failure (.obj [("email", .str "a@b.com")]) offlineWorld "a@b.com"
     (.obj [("code", .str "auth/network-request-failed"), ("message", .str "socket hang up")])
     (.str "auth/network-request-failed") rfl (by decide) rfl rfl
     (fun h => absurd (JSVal.str.inj h) (by decide)),
   rfl⟩

/-- C5: when the value of `email` is not a string (the field is missing, or
holds a value of another type, or the payload has no readable `email` at all),
the invocation makes no lookup: the log of calls is left as it was, so the
number of lookups made is zero; and when `email` can be read the invocation
ends in the validation error. -/
theorem no_lookup_of_missing_or_non_string (data : JSVal) (w : World)
    (hty : ∀ s, getProp data "email" ≠ .ok (.str s)) :
    lookupsDuring data w = [] ∧ (lookupsDuring data w).length = 0 ∧
      (checkUserExists data w).2 = w ∧
      (∀ email, getProp data "email" = .ok email →
        (checkUserExists data w).1
          = .httpsError "invalid-argument" (.str "A valid email must be provided.")) := by
  have h := lookupsDuring_of_not_valid data w (fun s hs => absurd hs (hty s))
  refine ⟨h.2, by rw [h.2]; rfl, by rw [h.1], ?_⟩
  intro email hread
  have hne : typeOf email ≠ "string" := by
    cases email with
    | str s => exact absurd hread (hty s)
    | _ => simp [typeOf]
  rw [run_of_invalid data w email hread (Or.inl hne)]

/-- The requests `{}` and `{ email: 42 }` of C5 make no lookup. -/
theorem no_lookup_of_missing_or_non_string_witness :
    lookupsDuring (.obj []) oneAccountWorld = [] ∧
    lookupsDuring (.obj [("email", .num (.finite 42))]) oneAccountWorld = [] :=
  ⟨(no_lookup_of_missing_or_non_string (.obj []) oneAccountWorld
      (fun _ h => by cases h)).1,
   (no_lookup_of_missing_or_non_string (.obj [("email", .num (.finite 42))]) oneAccountWorld
      (fun _ h => by cases h)).1⟩

/-- C6, as stated, fails: in the request `{ email: "" }` the field is present and
is a string, yet the handler throws `invalid-argument` and makes no lookup. -/
theorem empty_string_email_is_rejected :
    getProp (.obj [("email", .str "")]) "email" = .ok (.str "") ∧
    typeOf (.str "") = "string" ∧
    (checkUserExists (.obj [("email", .str "")]) oneAccountWorld).1
      = .httpsError "invalid-argument" (.str "A valid email must be provided.") ∧
    lookupsDuring (.obj [("email", .str "")]) oneAccountWorld = [] :=
  ⟨rfl, rfl, rfl, rfl⟩

/-- C6, amended: for a payload whose `email` can be read, the handler throws
`invalid-argument` if and only if the value read is not a string or is the
empty string; when it is a non-empty string the handler proceeds to the lookup
of that string. -/
theorem invalid_argument_iff (data : JSVal) (w : World) (email : JSVal)
    (hread : getProp data "email" = .ok email) :
    ((checkUserExists data w).1.code? = some "invalid-argument" ↔
        (typeOf email ≠ "string" ∨ email = .str "")) ∧
    (∀ s, email = .str s → s ≠ "" → lookupsDuring data w = [.str s]) := by
  constructor
  · constructor
    · intro hcode
      by_contra hgood
      have hvalid : ∃ s, email = .str s ∧ s ≠ "" := by
        cases email with
        | str s => exact ⟨s, rfl, fun hs => hgood (Or.inr (by rw [hs]))⟩
        | _ => exact absurd (Or.inl (by simp [typeOf])) hgood
      obtain ⟨s, rfl, hs⟩ := hvalid
      exact code_of_valid data w s hread hs hcode
    · intro hbad
      rw [run_of_invalid data w email hread hbad]
      rfl
  · intro s hemail hs
    subst hemail
    exact lookupsDuring_of_valid data w s hread hs

/-- The amended C6 at the request `{ email: "a@b.com" }`: no `invalid-argument`
error, one lookup. -/
theorem invalid_argument_iff_witness :
    getProp (.obj [("email", .str "a@b.com")]) "email" = .ok (.str "a@b.com") ∧
    (checkUserExists (.obj [("email", .str "a@b.com")]) oneAccountWorld).1.code?
      ≠ some "invalid-argument" ∧
    lookupsDuring (.obj [("email", .str "a@b.com")]) oneAccountWorld = [.str "a@b.com"] :=
  ⟨rfl,
   fun h =>
     (((invalid_argument_iff (.obj [("email", .str "a@b.com")]) oneAccountWorld (.str "a@b.com")
        rfl).1.1 h).elim (fun hty => hty rfl)
        (fun he => absurd (JSVal.str.inj he) (by decide))),
   (invalid_argument_iff (.obj [("email", .str "a@b.com")]) oneAccountWorld (.str "a@b.com")
      rfl).2 "a@b.com" rfl (by decide)⟩

/-- C7: when `email` is a non-empty string, whatever its syntax, the invocation
makes exactly one lookup, whose argument is that very string, and does not
throw `invalid-argument`. -/
theorem one_lookup_with_the_email (data : JSVal) (w : World) (s : String)
    (hread : getProp data "email" = .ok (.str s)) (hs : s ≠ "") :
    lookupsDuring data w = [.str s] ∧
      (checkUserExists data w).2.lookups = w.lookups ++ [.str s] ∧
      (checkUserExists data w).1.code? ≠ some "invalid-argument" := by
  refine ⟨lookupsDuring_of_valid data w s hread hs, ?_, ?_⟩
  · rw [world_of_valid data w s hread hs]
    rfl
  · exact code_of_valid data w s hread hs

/-- The string `not-an-email` of C7 is looked up as it is. -/
theorem one_lookup_with_the_email_witness :
    getProp (.obj [("email", .str "not-an-email")]) "email" = .ok (.str "not-an-email") ∧
    "not-an-email" ≠ "" ∧
    lookupsDuring (.obj [("email", .str "not-an-email")]) emptyWorld = [.str "not-an-email"] :=
  ⟨rfl, by decide,
   (one_lookup_with_the_email (.obj [("email", .str "not-an-email")]) emptyWorld "not-an-email"
      rfl (by decide)).1⟩

/-- C8: if the handler returns a result whose `exists` is true, the invocation
made a lookup and the directory resolved it; if it returns a result whose
`exists` is false, the invocation made a lookup and the directory rejected it
with an error whose `code` is `auth/user-not-found`. -/
theorem result_invariant (data : JSVal) (w : World) (result : JSVal)
    (hret : (checkUserExists data w).1 = .returned result) :
    (getProp result "exists" = .ok (.bool true) →
      ∃ s userRecord, lookupsDuring data w = [.str s] ∧
        w.directory (.str s) = .resolved userRecord) ∧
    (getProp result "exists" = .ok (.bool false) →
      ∃ s reason, lookupsDuring data w = [.str s] ∧
        w.directory (.str s) = .rejected reason ∧
        getProp reason "code" = .ok (.str "auth/user-not-found")) := by
  rcases email_cases data with ⟨exn, he⟩ | ⟨email, he, hbad⟩ | ⟨s, he, hs⟩
  · rw [run_of_unreadable data w exn he] at hret
    cases hret
  · rw [run_of_invalid data w email he hbad] at hret
    cases hret
  · have hlog := lookupsDuring_of_valid data w s he hs
    cases hdir : w.directory (.str s) with
    | rejected reason =>
      rw [run_of_rejected data w s reason he hs hdir] at hret
      obtain ⟨hres, hcode⟩ := catchBlock_returned reason result hret
      subst hres
      refine ⟨fun h => ?_, fun _ => ⟨s, reason, hlog, hdir, hcode⟩⟩
      have h2 : (Except.ok (.bool false) : Except JSVal JSVal) = .ok (.bool true) := h
      cases h2
    | resolved userRecord =>
      rw [run_of_resolved data w s userRecord he hs hdir] at hret
      rcases foundResult_cases userRecord with ⟨uid, name, photoUrl, hf⟩ | ⟨shown, hf⟩
      · simp only [hf] at hret
        cases hret
        refine ⟨fun _ => ⟨s, userRecord, hlog, hdir⟩, fun h => ?_⟩
        have h2 : (Except.ok (.bool true) : Except JSVal JSVal) = .ok (.bool false) := h
        cases h2
      · simp only [hf, catchBlock_typeError] at hret
        cases hret

/-- The invariant on the two scenarios: a found account and an unknown one. -/
theorem result_invariant_witness :
    ((checkUserExists (.obj [("email", .str "a@b.com")]) oneAccountWorld).1
        = .returned (.obj [("exists", .bool true), ("uid", .str "123"),
                           ("name", .null), ("photoUrl", .null)]) ∧
      ∃ s userRecord,
        lookupsDuring (.obj [("email", .str "a@b.com")]) oneAccountWorld = [.str s] ∧
        oneAccountWorld.directory (.str s) = .resolved userRecord) ∧
    ((checkUserExists (.obj [("email", .str "nobody@x.com")]) oneAccountWorld).1
        = .returned (.obj [("exists", .bool false)]) ∧
      ∃ s reason,
        lookupsDuring (.obj [("email", .str "nobody@x.com")]) oneAccountWorld = [.str s] ∧
        oneAccountWorld.directory (.str s) = .rejected reason ∧
        getProp reason "code" = .ok (.str "auth/user-not-found")) :=
  ⟨⟨rfl, (result_invariant (.obj [("email", .str "a@b.com")]) oneAccountWorld
            (.obj [("exists", .bool true), ("uid", .str "123"),
                   ("name", .null), ("photoUrl", .null)]) rfl).1 rfl⟩,
   ⟨rfl, (result_invariant (.obj [("email", .str "nobody@x.com")]) oneAccountWorld
            (.obj [("exists", .bool false)]) rfl).2 rfl⟩⟩

/-- C9: the outcome of an invocation depends on the payload and on the directory
only.  Invoking the handler a second time with the same payload, in the world
the first invocation left, gives the same outcome; the first invocation leaves
the directory as it was; and the log of earlier lookups, the only other
component of the world, has no influence on the outcome. -/
theorem same_request_same_outcome (data : JSVal) (w : World) :
    (checkUserExists data (checkUserExists data w).2).1 = (checkUserExists data w).1 ∧
    (checkUserExists data w).2.directory = w.directory ∧
    (∀ log1 log2 : List JSVal,
      (checkUserExists data { directory := w.directory, lookups := log1 }).1
        = (checkUserExists data { directory := w.directory, lookups := log2 }).1) := by
  have hlog : ∀ (d : JSVal → Settled) (log1 log2 : List JSVal),
      (checkUserExists data { directory := d, lookups := log1 }).1
        = (checkUserExists data { directory := d, lookups := log2 }).1 := by
    intro d log1 log2
    rcases email_cases data with ⟨exn, he⟩ | ⟨email, he, hbad⟩ | ⟨s, he, hs⟩
    · rw [run_of_unreadable data _ exn he, run_of_unreadable data _ exn he]
    · rw [run_of_invalid data _ email he hbad, run_of_invalid data _ email he hbad]
    · cases hdir : d (.str s) with
      | rejected reason =>
        rw [run_of_rejected data ⟨d, log1⟩ s reason he hs hdir,
          run_of_rejected data ⟨d, log2⟩ s reason he hs hdir]
      | resolved userRecord =>
        rw [run_of_resolved data ⟨d, log1⟩ s userRecord he hs hdir,
          run_of_resolved data ⟨d, log2⟩ s userRecord he hs hdir]
  have hdir : (checkUserExists data w).2.directory = w.directory := by
    rcases email_cases data with ⟨exn, he⟩ | ⟨email, he, hbad⟩ | ⟨s, he, hs⟩
    · rw [run_of_unreadable data w exn he]
    · rw [run_of_invalid data w email he hbad]
    · rw [world_of_valid data w s he hs]
      rfl
  refine ⟨?_, hdir, hlog w.directory⟩
  have h1 := hlog w.directory (checkUserExists data w).2.lookups w.lookups
  have e1 : (checkUserExists data w).2
      = { directory := w.directory, lookups := (checkUserExists data w).2.lookups } := by
    rw [← hdir]
  rw [e1]
  rw [h1]

/-- C10 fails on the code: with the payload `null` the first property read throws
a `TypeError`, which escapes the handler; and when the lookup is rejected with
`null`, reading `error.code` in the `catch` block throws a `TypeError`, which
escapes as well.  Neither is one of the four outcomes. -/
theorem type_error_escapes :
    ((checkUserExists .null oneAccountWorld).1 = .threw (typeError "null" "email") ∧
      (checkUserExists .null oneAccountWorld).1.isContractual = false) ∧
    ((checkUserExists (.obj [("email", .str "a@b.com")])
        { directory := fun _ => .rejected .null, lookups := [] }).1
        = .threw (typeError "null" "code") ∧
      (checkUserExists (.obj [("email", .str "a@b.com")])
        { directory := fun _ => .rejected .null, lookups := [] }).1.isContractual = false) :=
  ⟨⟨rfl, rfl⟩, ⟨rfl, rfl⟩⟩

/-- Apart from those two paths every invocation ends in one of the four
outcomes: the payload is not `null` or `undefined` (its `email` can be read)
and the directory rejects with a value whose `code` can be read. -/
theorem contractual_of_readable (data : JSVal) (w : World) (email : JSVal)
    (hread : getProp data "email" = .ok email)
    (hrej : ∀ q reason, w.directory q = .rejected reason →
      ∃ code, getProp reason "code" = .ok code) :
    (checkUserExists data w).1.isContractual = true := by
  rcases email_cases data with ⟨exn, he⟩ | ⟨email, he, hbad⟩ | ⟨s, he, hs⟩
  · rw [he] at hread
    cases hread
  · rw [run_of_invalid data w email he hbad]
    rfl
  · cases hdir : w.directory (.str s) with
    | rejected reason =>
      rw [run_of_rejected data w s reason he hs hdir]
      obtain ⟨code, hc⟩ := hrej _ _ hdir
      exact catchBlock_contractual reason code hc
    | resolved userRecord =>
      rw [run_of_resolved data w s userRecord he hs hdir]
      rcases foundResult_cases userRecord with ⟨uid, name, photoUrl, hf⟩ | ⟨shown, hf⟩
      · simp only [hf]
        simp [Outcome.isContractual]
      · simp only [hf, catchBlock_typeError]
        rfl

end CheckUserExists
